import Mathlib

/-!
Verification development for the SD-card speed-test example
(`src/main/sd_card_example_main.c`, plus the simpler variant in
`src/unnamed/part_000`).  The chunked transfer loops of
`test_write_speed` / `test_read_speed`, the timing and speed report,
the failure diagnostics, the smoke-test read-back and the control flow
of `app_main` are embedded as executable Lean definitions, and the
specified properties are proved or refuted against them.
-/

namespace SDCard

/-- Constant `TEST_BUFFER_SIZE` (sd_card_example_main.c line 48): 128 KiB. -/
def TEST_BUFFER_SIZE : Nat := 128 * 1024

/-- Constant `TEST_FILE_SIZE` (sd_card_example_main.c line 49): 4 MiB. -/
def TEST_FILE_SIZE : Nat := 4 * 1024 * 1024

/-- Outcome of a transfer session: the loop either runs out of fuel
(never happens for positive buffer size, kept to make the recursion total),
completes with all bytes transferred, or stops at a short chunk. -/
inductive Outcome
  | pending
  | completed
  | failed
deriving DecidableEq

/-- Result of one transfer session (`test_write_speed` lines 108-123,
`test_read_speed` lines 181-208): final `bytes_written` / `bytes_read`,
the sizes of all fully-successful chunks in order, the outcome, and at a
failure the requested size and the short return value of the failing call. -/
structure Session where
  bytesTransferred : Nat
  chunks : List Nat
  outcome : Outcome
  failReq : Nat
  failGot : Nat
deriving DecidableEq

/-- Embedding of the transfer loops of `test_write_speed` (lines 108-123) and
`test_read_speed` (lines 181-208), which are textually identical up to the
direction of the transfer.  `dev k req` is the number of bytes the `fwrite` /
`fread` call actually transfers at chunk index `k` when asked for `req` bytes;
it is clamped to `req` because those calls never return more than requested.
`toWrite` mirrors `to_write = TEST_FILE_SIZE - bytes_written` capped at
`TEST_BUFFER_SIZE`; a short return breaks out of the loop before
`bytes_written += written`.  `fuel` bounds the iteration count so the
function is total; `drive` below supplies enough fuel. -/
def driveAux (bufSize : Nat) (dev : Nat → Nat → Nat) (target : Nat) :
    Nat → Nat → List Nat → Session
  | 0, bytes, acc => ⟨bytes, acc.reverse, Outcome.pending, 0, 0⟩
  | fuel + 1, bytes, acc =>
    if bytes < target then
      let toWrite := min (target - bytes) bufSize
      let written := min (dev acc.length toWrite) toWrite
      if written = toWrite then
        driveAux bufSize dev target fuel (bytes + written) (toWrite :: acc)
      else
        ⟨bytes, acc.reverse, Outcome.failed, toWrite, written⟩
    else
      ⟨bytes, acc.reverse, Outcome.completed, 0, 0⟩

/-- Run a whole transfer session from `bytes = 0`.  Fuel `target + 1`
suffices: every successful iteration transfers at least one byte when the
buffer size is positive. -/
def drive (bufSize : Nat) (dev : Nat → Nat → Nat) (target : Nat) : Session :=
  driveAux bufSize dev target (target + 1) 0 []

/-- Device behaviour in which every chunk transfers exactly what was asked:
the fully-successful run. -/
def fullDev : Nat → Nat → Nat := fun _ req => req

/-- Expected list of chunk sizes for a fully-successful session over `rem`
remaining bytes: repeatedly take `min rem bufSize`. -/
def chunkList (bufSize : Nat) (rem : Nat) : List Nat :=
  if _h : 0 < rem ∧ 0 < bufSize then
    min rem bufSize :: chunkList bufSize (rem - min rem bufSize)
  else
    []
termination_by rem
decreasing_by
  omega

/-- Outcome of the speed computation (`test_write_speed` lines 131-136,
`test_read_speed` lines 212-217).  The source always produces a speed
report; the `immeasurable` alternative exists so that the question
"does the code ever signal a distinct immeasurable-timing outcome?"
can be stated.  Rationals stand in for the C `float` arithmetic: the
claims settled here concern only which alternative is produced and
which byte count enters the quotient, not rounding. -/
inductive SpeedOutcome
  | report (mbPerS : ℚ) (seconds : ℚ) (bytes : Nat)
  | immeasurable
deriving DecidableEq

/-- Embedding of the speed computation: `time_s = (end_time - start_time)
/ 1000000.0` and `speed_mb = (TEST_FILE_SIZE / (1024.0 * 1024.0)) / time_s`,
unconditionally, followed by the log line carrying `TEST_FILE_SIZE`.
Timestamps are in microseconds as returned by `esp_timer_get_time`. -/
def speedReport (target : Nat) (startUs endUs : Int) : SpeedOutcome :=
  let timeS : ℚ := ((endUs - startUs : Int) : ℚ) / 1000000
  SpeedOutcome.report (((target : ℚ) / (1024 * 1024)) / timeS) timeS target

/-- End condition of the stream at a short transfer: the two observably
different cases, end-of-data (`feof`) versus error (`ferror`). -/
inductive FailCause
  | endOfData
  | deviceError
deriving DecidableEq

/-- Diagnostic emitted for a short chunk: the write loop's single generic
`"Write failed"` log (line 119), or one of the two read-loop logs
(lines 195-202). -/
inductive FailDiag
  | writeFailed
  | readErrorCond (errno : Int)
  | readUnexpectedEof (bytesSoFar : Nat)
deriving DecidableEq

/-- Embedding of the write loop's failure branch (lines 117-121): whatever
the stream's end condition is, the only diagnostic is `"Write failed"`. -/
def writeFailDiag (_cause : FailCause) : FailDiag :=
  FailDiag.writeFailed

/-- Embedding of the read loop's failure branch (lines 190-204): after the
detailed log it branches on `ferror(f)`, logging the errno on an error
condition and `"Unexpected EOF at %d bytes"` otherwise. -/
def readFailDiag (cause : FailCause) (errno : Int) (bytesSoFar : Nat) : FailDiag :=
  match cause with
  | FailCause.deviceError => FailDiag.readErrorCond errno
  | FailCause.endOfData => FailDiag.readUnexpectedEof bytesSoFar

/-- Observable events of `test_write_speed` / `test_read_speed`, in program
order: logs, allocation, buffer fill, file open/close, the two timestamp
captures, each transfer call with its requested size, flush and sync, the
final speed log with the byte count it reports, buffer release, and the
test-file delete. -/
inductive Event
  | logStart
  | unlinkOld
  | allocBuf
  | logAllocFail
  | fillBuf
  | openFile
  | logOpenFail
  | timeStart
  | chunkXfer (req : Nat)
  | logFail (d : FailDiag)
  | flushFile
  | syncFile
  | closeFile
  | timeEnd
  | logSpeed (bytes : Nat)
  | freeBuf
  | unlinkTestFile
deriving DecidableEq

/-- Transfer-call events of a write session: one `chunkXfer` per successful
chunk; on failure also the short call itself (requesting `failReq`) followed
by the generic `"Write failed"` log, exactly as in lines 116-121. -/
def sessionEventsW (s : Session) : List Event :=
  s.chunks.map Event.chunkXfer ++
    (if s.outcome = Outcome.failed then
      [Event.chunkXfer s.failReq, Event.logFail FailDiag.writeFailed]
    else [])

/-- Transfer-call events of a read session: as `sessionEventsW`, but the
failure log discriminates on `ferror` as in lines 190-204. -/
def sessionEventsR (s : Session) (cause : FailCause) (errno : Int) : List Event :=
  s.chunks.map Event.chunkXfer ++
    (if s.outcome = Outcome.failed then
      [Event.chunkXfer s.failReq, Event.logFail (readFailDiag cause errno s.bytesTransferred)]
    else [])

/-- Embedding of `test_write_speed` (lines 70-139) as its event trace.
`oldExists` is whether `stat` finds a previous test file, `allocOk` whether
`malloc` succeeds, `openOk` whether `fopen` succeeds, and `dev` the byte
counts returned by the `fwrite` calls.  On the full path: start log,
optional unlink, allocation, buffer fill, open, start timestamp, the
transfer loop, then unconditionally `fflush`, `fsync`, `fclose`, the end
timestamp, the speed log carrying `TEST_FILE_SIZE`, and `free`. -/
def testWriteSpeed (oldExists allocOk openOk : Bool) (dev : Nat → Nat → Nat) : List Event :=
  Event.logStart :: ((if oldExists then [Event.unlinkOld] else []) ++
    (if allocOk = false then [Event.logAllocFail] else
      Event.allocBuf :: Event.fillBuf :: Event.openFile ::
        (if openOk = false then [Event.logOpenFail, Event.freeBuf] else
          Event.timeStart ::
            (sessionEventsW (drive TEST_BUFFER_SIZE dev TEST_FILE_SIZE) ++
              [Event.flushFile, Event.syncFile, Event.closeFile, Event.timeEnd,
               Event.logSpeed TEST_FILE_SIZE, Event.freeBuf]))))

/-- Embedding of `test_read_speed` (lines 155-223) as its event trace:
start log, allocation, open, start timestamp, the transfer loop, `fclose`,
the end timestamp, the speed log carrying `TEST_FILE_SIZE`, `free`, and the
test-file unlink.  No flush or sync is performed on the read path. -/
def testReadSpeed (allocOk openOk : Bool) (dev : Nat → Nat → Nat)
    (cause : FailCause) (errno : Int) : List Event :=
  Event.logStart ::
    (if allocOk = false then [Event.logAllocFail] else
      Event.allocBuf :: Event.openFile ::
        (if openOk = false then [Event.logOpenFail, Event.freeBuf] else
          Event.timeStart ::
            (sessionEventsR (drive TEST_BUFFER_SIZE dev TEST_FILE_SIZE) cause errno ++
              [Event.closeFile, Event.timeEnd, Event.logSpeed TEST_FILE_SIZE,
               Event.freeBuf, Event.unlinkTestFile])))

/-- Embedding of the write-test buffer fill (lines 89-92):
`buffer[i] = i & 0xFF` for every index of the buffer.  The fill is a pure
function of the index — deterministic, no I/O. -/
def fillBuffer (size : Nat) : List Nat :=
  (List.range size).map (fun i => i &&& 0xFF)

/-- Oracle outcomes of the fallible calls `app_main` makes after attempting
the mount: the smoke-test `fopen` for writing, `rename`, and the read-back
`fopen`, together with whether the mount itself succeeded. -/
structure MainEnv where
  mountOk : Bool
  openHelloOk : Bool
  renameOk : Bool
  openFooOk : Bool
deriving DecidableEq

/-- Observable resource and file events of `app_main`. -/
inductive MainEvent
  | mountAcquired
  | printCardInfo
  | openHello
  | writeHello
  | renameFile
  | openFoo
  | readFoo
  | runWriteTest
  | runReadTest
  | unmount
deriving DecidableEq

/-- Embedding of `app_main` (sd_card_example_main.c lines 251-406; the
variant in src/unnamed/part_000 lines 29-184 has the same shape without the
speed tests): on mount failure the function returns before holding the
resource; after a successful mount each failing step — smoke-test open
(line 351), rename (line 374), read-back open (line 383) — returns
immediately, and only the path on which everything succeeds reaches
`esp_vfs_fat_sdcard_unmount` (line 403). -/
def appMain (e : MainEnv) : List MainEvent :=
  if e.mountOk = false then [] else
    MainEvent.mountAcquired :: MainEvent.printCardInfo ::
      (if e.openHelloOk = false then [MainEvent.openHello] else
        MainEvent.openHello :: MainEvent.writeHello ::
          (if e.renameOk = false then [MainEvent.renameFile] else
            MainEvent.renameFile ::
              (if e.openFooOk = false then [MainEvent.openFoo] else
                [MainEvent.openFoo, MainEvent.readFoo, MainEvent.runWriteTest,
                 MainEvent.runReadTest, MainEvent.unmount])))

/-- Embedding of `fgets(line, cap, f)` on a file whose remaining content is
`content`: read at most `cap - 1` characters, stopping after a newline is
read (the newline is stored).  The fuel argument is the remaining capacity. -/
def fgetsTake : Nat → List Char → List Char
  | 0, _ => []
  | _ + 1, [] => []
  | n + 1, c :: rest => if c = '\n' then [c] else c :: fgetsTake n rest

/-- Embedding of the smoke-test read (line 388): `fgets(line, 64, f)` reads
at most 63 characters into the 64-byte buffer. -/
def fgetsLine (cap : Nat) (content : List Char) : List Char :=
  fgetsTake (cap - 1) content

/-- Embedding of the trailing-newline strip (lines 392-396): `strchr` finds
the first newline and the code truncates the string there. -/
def stripNewline (l : List Char) : List Char :=
  l.takeWhile (fun c => c != '\n')

/-- Smoke-test round trip for a written line `S`: the file holds `S`
followed by a newline (line 354 writes `"Hello %s!\n"`), the read-back is
`fgetsLine 64` and the strip is `stripNewline` (lines 386-396). -/
def smokeRoundTrip (S : List Char) : List Char :=
  stripNewline (fgetsLine 64 (S ++ ['\n']))

/-- Unfolding equation for one loop iteration with the local bindings
`to_write` and `written` inlined. -/
lemma driveAux_succ (b : Nat) (dev : Nat → Nat → Nat) (t fuel bytes : Nat) (acc : List Nat) :
    driveAux b dev t (fuel + 1) bytes acc =
      if bytes < t then
        (if min (dev acc.length (min (t - bytes) b)) (min (t - bytes) b) = min (t - bytes) b then
          driveAux b dev t fuel
            (bytes + min (dev acc.length (min (t - bytes) b)) (min (t - bytes) b))
            (min (t - bytes) b :: acc)
        else ⟨bytes, acc.reverse, Outcome.failed, min (t - bytes) b,
              min (dev acc.length (min (t - bytes) b)) (min (t - bytes) b)⟩)
      else ⟨bytes, acc.reverse, Outcome.completed, 0, 0⟩ := rfl

/-- Closed form of `chunkList`: full buffers followed by the remainder. -/
lemma chunkList_closed (b : Nat) (hb : 0 < b) (rem : Nat) :
    chunkList b rem =
      List.replicate (rem / b) b ++ (if rem % b = 0 then [] else [rem % b]) := by
  induction rem using Nat.strong_induction_on with
  | _ rem ih =>
    rw [chunkList]
    by_cases h0 : 0 < rem
    · rw [dif_pos ⟨h0, hb⟩]
      by_cases hle : rem < b
      · have hmin : min rem b = rem := Nat.min_eq_left (Nat.le_of_lt hle)
        rw [hmin, Nat.sub_self, chunkList]
        simp [Nat.div_eq_of_lt hle, Nat.mod_eq_of_lt hle, Nat.pos_iff_ne_zero.mp h0]
      · push_neg at hle
        have hmin : min rem b = b := Nat.min_eq_right hle
        rw [hmin, ih (rem - b) (by omega)]
        have hdiv : rem / b = (rem - b) / b + 1 := Nat.div_eq_sub_div hb hle
        have hmod : rem % b = (rem - b) % b := Nat.mod_eq_sub_mod hle
        rw [hdiv, hmod, List.replicate_succ, List.cons_append]
    · have h0' : rem = 0 := by omega
      subst h0'
      simp

/-- With the fully-successful device the loop runs to completion and the
chunk sizes are exactly `chunkList` of the remaining bytes. -/
lemma driveAux_full (b t : Nat) (hb : 0 < b) :
    ∀ fuel bytes acc, bytes ≤ t → t - bytes < fuel →
      driveAux b fullDev t fuel bytes acc =
        ⟨t, acc.reverse ++ chunkList b (t - bytes), Outcome.completed, 0, 0⟩ := by
  intro fuel
  induction fuel with
  | zero => intro bytes acc h1 h2; omega
  | succ n ih =>
    intro bytes acc h1 h2
    rw [driveAux_succ]
    by_cases hlt : bytes < t
    · rw [if_pos hlt]
      simp only [fullDev, Nat.min_self, if_pos rfl]
      rw [ih (bytes + min (t - bytes) b) (min (t - bytes) b :: acc) (by omega) (by omega)]
      have hstep : chunkList b (t - bytes) =
          min (t - bytes) b :: chunkList b (t - (bytes + min (t - bytes) b)) := by
        rw [chunkList]
        rw [dif_pos ⟨by omega, hb⟩]
        congr 1
        congr 1
        omega
      rw [hstep]
      simp
    · rw [if_neg hlt]
      have : bytes = t := by omega
      subst this
      rw [Nat.sub_self, chunkList]
      simp

/-- Whole-session form of `driveAux_full`. -/
lemma drive_full_eq (b t : Nat) (hb : 0 < b) :
    drive b fullDev t = ⟨t, chunkList b t, Outcome.completed, 0, 0⟩ := by
  rw [drive, driveAux_full b t hb (t + 1) 0 [] (by omega) (by omega)]
  simp

/-- Loop invariant: `bytes_written` is always the sum of the recorded
fully-successful chunks, for any device behaviour. -/
lemma driveAux_sum (b : Nat) (dev : Nat → Nat → Nat) (t : Nat) :
    ∀ fuel bytes acc, bytes = acc.sum →
      (driveAux b dev t fuel bytes acc).bytesTransferred =
        (driveAux b dev t fuel bytes acc).chunks.sum := by
  intro fuel
  induction fuel with
  | zero => intro bytes acc h; simp [driveAux, h, List.sum_reverse]
  | succ n ih =>
    intro bytes acc h
    rw [driveAux_succ]
    split_ifs with h1 h2
    · exact ih _ _ (by rw [h2, List.sum_cons, ← h]; omega)
    · simp [h, List.sum_reverse]
    · simp [h, List.sum_reverse]

/-- Loop invariant: `bytes_written` never exceeds the target, for any
device behaviour. -/
lemma driveAux_le (b : Nat) (dev : Nat → Nat → Nat) (t : Nat) :
    ∀ fuel bytes acc, bytes ≤ t →
      (driveAux b dev t fuel bytes acc).bytesTransferred ≤ t := by
  intro fuel
  induction fuel with
  | zero => intro bytes acc h; simpa [driveAux] using h
  | succ n ih =>
    intro bytes acc h
    rw [driveAux_succ]
    split_ifs with h1 h2
    · exact ih _ _ (by omega)
    · simpa using h
    · simpa using h

/-- At a failure exit the short call returned strictly fewer bytes than the
chunk it was asked for, that chunk was the very next one
(`min (target - bytes_so_far) bufSize`), and the loop had not reached the
target. -/
lemma driveAux_failed (b : Nat) (dev : Nat → Nat → Nat) (t : Nat) :
    ∀ fuel bytes acc,
      (driveAux b dev t fuel bytes acc).outcome = Outcome.failed →
      (driveAux b dev t fuel bytes acc).failGot < (driveAux b dev t fuel bytes acc).failReq ∧
      (driveAux b dev t fuel bytes acc).failReq =
        min (t - (driveAux b dev t fuel bytes acc).bytesTransferred) b ∧
      (driveAux b dev t fuel bytes acc).bytesTransferred < t := by
  intro fuel
  induction fuel with
  | zero => intro bytes acc h; simp [driveAux] at h
  | succ n ih =>
    intro bytes acc
    rw [driveAux_succ]
    split_ifs with h1 h2
    · exact ih _ _
    · intro _
      dsimp only
      refine ⟨?_, rfl, h1⟩
      omega
    · intro h
      simp at h

/-- Helper for the smoke test: when the line plus its newline fits strictly
inside the capacity, `fgets` reads the whole line including the newline. -/
lemma fgetsTake_lt (S : List Char) (hn : '\n' ∉ S) :
    ∀ n, S.length < n → fgetsTake n (S ++ ['\n']) = S ++ ['\n'] := by
  induction S with
  | nil =>
    intro n h
    match n with
    | m + 1 => simp [fgetsTake]
  | cons c S' ih =>
    intro n h
    match n with
    | m + 1 =>
      have hc : ¬(c = '\n') := fun hh => hn (by simp [hh])
      simp only [List.cons_append, fgetsTake, if_neg hc, List.append_eq]
      rw [ih (fun hm => hn (List.mem_cons_of_mem _ hm)) m (by simpa using h)]

/-- Helper for the smoke test: when the line exactly fills the capacity,
`fgets` reads the line and stops before the newline. -/
lemma fgetsTake_eq (S : List Char) (hn : '\n' ∉ S) :
    fgetsTake S.length (S ++ ['\n']) = S := by
  induction S with
  | nil => simp [fgetsTake]
  | cons c S' ih =>
    have hc : ¬(c = '\n') := fun hh => hn (by simp [hh])
    simp only [List.length_cons, List.cons_append, fgetsTake, if_neg hc, List.append_eq]
    rw [ih (fun hm => hn (List.mem_cons_of_mem _ hm))]

/-- Stripping the first newline from a newline-free line with a trailing
newline recovers the line. -/
lemma stripNewline_append (S : List Char) (hn : '\n' ∉ S) :
    stripNewline (S ++ ['\n']) = S := by
  induction S with
  | nil => simp [stripNewline, List.takeWhile]
  | cons c S' ih =>
    have hc : (c != '\n') = true := by
      simp only [bne_iff_ne, ne_eq]
      exact fun hh => hn (by simp [hh])
    simp only [stripNewline, List.cons_append, List.takeWhile_cons, hc]
    simpa [stripNewline] using ih (fun hm => hn (List.mem_cons_of_mem _ hm))

/-- Stripping is the identity on a newline-free line. -/
lemma stripNewline_self (S : List Char) (hn : '\n' ∉ S) :
    stripNewline S = S := by
  rw [stripNewline, List.takeWhile_eq_self_iff]
  intro a ha
  simp only [bne_iff_ne, ne_eq]
  exact fun hh => hn (hh ▸ ha)

/-- C1: each chunk of a transfer session is `min (target - transferred,
buffer size)`; on a fully-successful run with an exact multiple the session
performs `target / bufSize` chunks of exactly `bufSize` bytes, otherwise the
same full chunks followed by one short chunk of `target % bufSize` bytes,
and `bytes_transferred` at completion equals the target.  In the configured
instance (128 KiB buffer, 4 MiB target) there are exactly 32 full chunks. -/
theorem transfer_chunking (bufSize target : Nat) (hb : 0 < bufSize) :
    (drive bufSize fullDev target).outcome = Outcome.completed ∧
    (drive bufSize fullDev target).bytesTransferred = target ∧
    (drive bufSize fullDev target).chunks =
      List.replicate (target / bufSize) bufSize ++
        (if target % bufSize = 0 then [] else [target % bufSize]) ∧
    (drive TEST_BUFFER_SIZE fullDev TEST_FILE_SIZE).chunks =
      List.replicate 32 TEST_BUFFER_SIZE := by
  have hbig : 0 < TEST_BUFFER_SIZE := by norm_num [TEST_BUFFER_SIZE]
  rw [drive_full_eq bufSize target hb, drive_full_eq TEST_BUFFER_SIZE TEST_FILE_SIZE hbig]
  dsimp only
  refine ⟨rfl, rfl, chunkList_closed bufSize hb target, ?_⟩
  rw [chunkList_closed TEST_BUFFER_SIZE hbig TEST_FILE_SIZE]
  norm_num [TEST_BUFFER_SIZE, TEST_FILE_SIZE]

/-- Witness for C1 at buffer size 3, target 7: chunks 3, 3, 1. -/
theorem transfer_chunking_witness :
    0 < 3 ∧
    ((drive 3 fullDev 7).outcome = Outcome.completed ∧
     (drive 3 fullDev 7).bytesTransferred = 7 ∧
     (drive 3 fullDev 7).chunks =
       List.replicate (7 / 3) 3 ++ (if 7 % 3 = 0 then [] else [7 % 3]) ∧
     (drive TEST_BUFFER_SIZE fullDev TEST_FILE_SIZE).chunks =
       List.replicate 32 TEST_BUFFER_SIZE) :=
  ⟨by decide, transfer_chunking 3 7 (by decide)⟩

/-- C2: if a session fails, `bytes_transferred` is exactly the sum of the
prior fully-successful chunks (the short chunk is not counted), the failing
call returned strictly fewer bytes than it requested, that request was the
very next chunk after the successful ones (so no further chunk was
attempted), and the target had not been reached. -/
theorem short_transfer_fails (bufSize target : Nat) (dev : Nat → Nat → Nat)
    (hf : (drive bufSize dev target).outcome = Outcome.failed) :
    (drive bufSize dev target).bytesTransferred = (drive bufSize dev target).chunks.sum ∧
    (drive bufSize dev target).failGot < (drive bufSize dev target).failReq ∧
    (drive bufSize dev target).failReq =
      min (target - (drive bufSize dev target).bytesTransferred) bufSize ∧
    (drive bufSize dev target).bytesTransferred < target := by
  have h1 := driveAux_sum bufSize dev target (target + 1) 0 [] rfl
  have h2 := driveAux_failed bufSize dev target (target + 1) 0 [] hf
  exact ⟨h1, h2.1, h2.2.1, h2.2.2⟩

/-- Witness for C2: buffer 3, target 10, device short from chunk index 1. -/
theorem short_transfer_fails_witness :
    (drive 3 (fun i req => if i = 0 then req else 0) 10).outcome = Outcome.failed ∧
    ((drive 3 (fun i req => if i = 0 then req else 0) 10).bytesTransferred =
       (drive 3 (fun i req => if i = 0 then req else 0) 10).chunks.sum ∧
     (drive 3 (fun i req => if i = 0 then req else 0) 10).failGot <
       (drive 3 (fun i req => if i = 0 then req else 0) 10).failReq ∧
     (drive 3 (fun i req => if i = 0 then req else 0) 10).failReq =
       min (10 - (drive 3 (fun i req => if i = 0 then req else 0) 10).bytesTransferred) 3 ∧
     (drive 3 (fun i req => if i = 0 then req else 0) 10).bytesTransferred < 10) :=
  ⟨by decide, short_transfer_fails 3 10 (fun i req => if i = 0 then req else 0) (by decide)⟩

/-- Counterexample for C3: with equal timestamps (elapsed = 0 ≤ 0) the code
still produces an ordinary division-based speed report — in the rational
model `4 / 0 = 0`, while the C `float` code computes the same division and
gets infinity — and does not signal a distinct immeasurable outcome. -/
theorem immeasurable_never_signaled_cex :
    speedReport TEST_FILE_SIZE 100 100 = SpeedOutcome.report 0 0 TEST_FILE_SIZE ∧
    speedReport TEST_FILE_SIZE 100 100 ≠ SpeedOutcome.immeasurable := by
  constructor
  · show SpeedOutcome.report ((TEST_FILE_SIZE : ℚ) / (1024 * 1024) / ((100 - 100 : Int) / 1000000 : ℚ))
      (((100 - 100 : Int) : ℚ) / 1000000) TEST_FILE_SIZE = SpeedOutcome.report 0 0 TEST_FILE_SIZE
    norm_num
  · simp [speedReport]

/-- C3 as amended: the code never signals an immeasurable-timing outcome;
for every pair of timestamps, including those with elapsed ≤ 0, it computes
elapsed seconds and throughput by unconditional division and reports them. -/
theorem timing_always_divides (target : Nat) (su eu : Int) :
    speedReport target su eu =
      SpeedOutcome.report
        (((target : ℚ) / (1024 * 1024)) / (((eu - su : Int) : ℚ) / 1000000))
        (((eu - su : Int) : ℚ) / 1000000) target ∧
    speedReport target su eu ≠ SpeedOutcome.immeasurable := by
  refine ⟨rfl, ?_⟩
  simp [speedReport]

/-- C4: the code violates the claim — after a successful mount, the early
failure exits of `app_main` (smoke-test open, rename, read-back open) return
without releasing the mount; only the fully-successful path unmounts.  The
mount is acquired on each of those paths yet the unmount count is 0. -/
theorem mount_leak_on_early_exit :
    (appMain ⟨true, false, true, true⟩).count MainEvent.mountAcquired = 1 ∧
    (appMain ⟨true, false, true, true⟩).count MainEvent.unmount = 0 ∧
    (appMain ⟨true, true, false, true⟩).count MainEvent.mountAcquired = 1 ∧
    (appMain ⟨true, true, false, true⟩).count MainEvent.unmount = 0 ∧
    (appMain ⟨true, true, true, false⟩).count MainEvent.mountAcquired = 1 ∧
    (appMain ⟨true, true, true, false⟩).count MainEvent.unmount = 0 ∧
    (appMain ⟨true, true, true, true⟩).count MainEvent.unmount = 1 := by
  decide

/-- Counterexample for C5: the write loop's failure report does not carry a
discriminator — the diagnostics for an end-of-data condition and for an
error condition are the same generic `"Write failed"` log. -/
theorem write_diag_collapsed_cex :
    writeFailDiag FailCause.endOfData = writeFailDiag FailCause.deviceError := rfl

/-- C5 as amended: only the read loop discriminates between end-of-data and
an error condition at a short chunk; the write loop collapses every failure
into one generic diagnostic. -/
theorem fail_diag_discrimination (errno : Int) (bytesSoFar : Nat) :
    readFailDiag FailCause.endOfData errno bytesSoFar ≠
      readFailDiag FailCause.deviceError errno bytesSoFar ∧
    ∀ c c' : FailCause, writeFailDiag c = writeFailDiag c' := by
  refine ⟨?_, fun c c' => rfl⟩
  simp [readFailDiag]

/-- C6: on a completed write session the trace has the start timestamp
before the chunk writes and then, in order and before anything else,
`fflush`, `fsync`, `fclose` and only then the end timestamp — so the flush
and the durability sync happen before the handle is closed and inside the
measured interval. -/
theorem write_flush_sync_order (oldExists : Bool) (dev : Nat → Nat → Nat)
    (hc : (drive TEST_BUFFER_SIZE dev TEST_FILE_SIZE).outcome = Outcome.completed) :
    ∃ l₁ l₂, testWriteSpeed oldExists true true dev =
      l₁ ++ Event.timeStart ::
        ((drive TEST_BUFFER_SIZE dev TEST_FILE_SIZE).chunks.map Event.chunkXfer ++
          Event.flushFile :: Event.syncFile :: Event.closeFile :: Event.timeEnd :: l₂) := by
  refine ⟨Event.logStart :: ((if oldExists then [Event.unlinkOld] else []) ++
      [Event.allocBuf, Event.fillBuf, Event.openFile]),
    [Event.logSpeed TEST_FILE_SIZE, Event.freeBuf], ?_⟩
  have hne : ¬((drive TEST_BUFFER_SIZE dev TEST_FILE_SIZE).outcome = Outcome.failed) := by
    rw [hc]
    simp
  simp [testWriteSpeed, sessionEventsW, hne]

/-- Witness for C6: the fully-successful device completes, and the trace
has the flush-sync-close-stop order. -/
theorem write_flush_sync_order_witness :
    (drive TEST_BUFFER_SIZE fullDev TEST_FILE_SIZE).outcome = Outcome.completed ∧
    (∃ l₁ l₂, testWriteSpeed false true true fullDev =
      l₁ ++ Event.timeStart ::
        ((drive TEST_BUFFER_SIZE fullDev TEST_FILE_SIZE).chunks.map Event.chunkXfer ++
          Event.flushFile :: Event.syncFile :: Event.closeFile :: Event.timeEnd :: l₂)) :=
  have hc : (drive TEST_BUFFER_SIZE fullDev TEST_FILE_SIZE).outcome = Outcome.completed := by
    rw [drive_full_eq TEST_BUFFER_SIZE TEST_FILE_SIZE (by norm_num [TEST_BUFFER_SIZE])]
  ⟨hc, write_flush_sync_order false fullDev hc⟩

/-- C7 counterexample: the claim fails for a 64-character line — the
64-byte `fgets` buffer reads only 63 characters, so the read-back is the
truncated first 63 characters, not the written line. -/
theorem smoke_roundtrip_cex :
    '\n' ∉ List.replicate 64 'a' ∧
    smokeRoundTrip (List.replicate 64 'a') = List.replicate 63 'a' ∧
    smokeRoundTrip (List.replicate 64 'a') ≠ List.replicate 64 'a' := by
  refine ⟨by decide, by decide, by decide⟩

/-- C7 as amended: for every single-line string without embedded newlines
of at most 63 characters (the most the 64-byte buffer can return), writing
the line plus a newline and performing the smoke-test read-back and
trailing-newline strip yields exactly the line. -/
theorem smoke_roundtrip_bounded (S : List Char) (hn : '\n' ∉ S) (hlen : S.length ≤ 63) :
    smokeRoundTrip S = S := by
  show stripNewline (fgetsTake 63 (S ++ ['\n'])) = S
  rcases Nat.lt_or_ge S.length 63 with h | h
  · rw [fgetsTake_lt S hn 63 h, stripNewline_append S hn]
  · have h63 : S.length = 63 := Nat.le_antisymm hlen h
    rw [← h63, fgetsTake_eq S hn, stripNewline_self S hn]

/-- Witness for C7 at a concrete two-character line. -/
theorem smoke_roundtrip_witness :
    ('\n' ∉ ['h', 'i']) ∧ (['h', 'i'] : List Char).length ≤ 63 ∧
    smokeRoundTrip ['h', 'i'] = ['h', 'i'] :=
  ⟨by decide, by decide, smoke_roundtrip_bounded ['h', 'i'] (by decide) (by decide)⟩

/-- C8: for every device behaviour, `bytes_transferred` never exceeds the
target, every intermediate value (a prefix sum of the successful chunks) is
bounded by the target, and the sequence of intermediate values is
monotonically non-decreasing. -/
theorem bytes_monotone_bounded (bufSize target : Nat) (dev : Nat → Nat → Nat) :
    (drive bufSize dev target).bytesTransferred ≤ target ∧
    (∀ n, ((drive bufSize dev target).chunks.take n).sum ≤ target) ∧
    (∀ m n, m ≤ n →
      ((drive bufSize dev target).chunks.take m).sum ≤
        ((drive bufSize dev target).chunks.take n).sum) := by
  have hle := driveAux_le bufSize dev target (target + 1) 0 [] (Nat.zero_le _)
  have hsum := driveAux_sum bufSize dev target (target + 1) 0 [] rfl
  have take_le : ∀ (l : List Nat) (k : Nat), (l.take k).sum ≤ l.sum := by
    intro l k
    conv_rhs => rw [← List.take_append_drop k l]
    rw [List.sum_append]
    exact Nat.le_add_right _ _
  refine ⟨hle, ?_, ?_⟩
  · intro n
    calc ((drive bufSize dev target).chunks.take n).sum
        ≤ (drive bufSize dev target).chunks.sum := take_le _ _
      _ = (drive bufSize dev target).bytesTransferred := hsum.symm
      _ ≤ target := hle
  · intro m n hmn
    have hsub : (drive bufSize dev target).chunks.take m =
        ((drive bufSize dev target).chunks.take n).take m := by
      rw [List.take_take, Nat.min_eq_left hmn]
    rw [hsub]
    exact take_le _ _

/-- Witness for C8 at buffer 3, target 7, indexes 1 ≤ 2. -/
theorem bytes_monotone_bounded_witness :
    (1 ≤ 2) ∧
    ((drive 3 fullDev 7).chunks.take 1).sum ≤ ((drive 3 fullDev 7).chunks.take 2).sum :=
  ⟨by decide, (bytes_monotone_bounded 3 7 fullDev).2.2 1 2 (by decide)⟩

/-- C9: the buffer fill sets every byte to its index modulo 256
(`buffer[i] = i & 0xFF` equals `i mod 256`); the fill is a pure function of
the index, with no I/O in the model by construction. -/
theorem fill_pattern (size i : Nat) (h : i < size) :
    (fillBuffer size).getD i 0 = i % 256 := by
  have h1 : (fillBuffer size).getD i 0 = i &&& 0xFF := by
    simp [fillBuffer, List.getD_eq_getElem?_getD, List.getElem?_map, List.getElem?_range, h]
  rw [h1]
  have h2 := Nat.and_pow_two_sub_one_eq_mod i 8
  norm_num at h2
  exact h2

/-- Witness for C9 at index 257 of the configured buffer: byte 1. -/
theorem fill_pattern_witness :
    257 < TEST_BUFFER_SIZE ∧ (fillBuffer TEST_BUFFER_SIZE).getD 257 0 = 257 % 256 :=
  ⟨by norm_num [TEST_BUFFER_SIZE],
   fill_pattern TEST_BUFFER_SIZE 257 (by norm_num [TEST_BUFFER_SIZE])⟩

/-- C10: if a write or read session fails partway (so fewer bytes than the
target were transferred), the speed log line is still emitted, and the byte
count it carries — from which the throughput is also computed, see
`speedReport` — is the full `TEST_FILE_SIZE`, never the bytes actually
transferred. -/
theorem failed_session_still_reports (oldExists : Bool) (dev : Nat → Nat → Nat)
    (cause : FailCause) (errno : Int)
    (hf : (drive TEST_BUFFER_SIZE dev TEST_FILE_SIZE).outcome = Outcome.failed) :
    (drive TEST_BUFFER_SIZE dev TEST_FILE_SIZE).bytesTransferred < TEST_FILE_SIZE ∧
    Event.logSpeed TEST_FILE_SIZE ∈ testWriteSpeed oldExists true true dev ∧
    Event.logSpeed TEST_FILE_SIZE ∈ testReadSpeed true true dev cause errno ∧
    (∀ b, Event.logSpeed b ∈ testWriteSpeed oldExists true true dev → b = TEST_FILE_SIZE) ∧
    (∀ b, Event.logSpeed b ∈ testReadSpeed true true dev cause errno → b = TEST_FILE_SIZE) := by
  refine ⟨?_, ?_, ?_, ?_, ?_⟩
  · exact (driveAux_failed TEST_BUFFER_SIZE dev TEST_FILE_SIZE
      (TEST_FILE_SIZE + 1) 0 [] hf).2.2
  · simp [testWriteSpeed, sessionEventsW, hf]
  · simp [testReadSpeed, sessionEventsR, hf]
  · intro b hb
    simp [testWriteSpeed, sessionEventsW, hf] at hb
    exact hb
  · intro b hb
    simp [testReadSpeed, sessionEventsR, hf] at hb
    exact hb

/-- Witness for C10 with a device that transfers nothing: the session
fails immediately, yet both traces still log the full target size. -/
theorem failed_session_still_reports_witness :
    (drive TEST_BUFFER_SIZE (fun _ _ => 0) TEST_FILE_SIZE).outcome = Outcome.failed ∧
    ((drive TEST_BUFFER_SIZE (fun _ _ => 0) TEST_FILE_SIZE).bytesTransferred < TEST_FILE_SIZE ∧
     Event.logSpeed TEST_FILE_SIZE ∈ testWriteSpeed false true true (fun _ _ => 0) ∧
     Event.logSpeed TEST_FILE_SIZE ∈
       testReadSpeed true true (fun _ _ => 0) FailCause.endOfData 0 ∧
     (∀ b, Event.logSpeed b ∈ testWriteSpeed false true true (fun _ _ => 0) →
       b = TEST_FILE_SIZE) ∧
     (∀ b, Event.logSpeed b ∈ testReadSpeed true true (fun _ _ => 0) FailCause.endOfData 0 →
       b = TEST_FILE_SIZE)) :=
  ⟨by decide,
   failed_session_still_reports false (fun _ _ => 0) FailCause.endOfData 0 (by decide)⟩

end SDCard
